import Mathlib

/-!
Shallow embedding of the workout-api backend.  The repository ships two
variants of the same service:

* a Supabase (REST) data-store adapter (`db.js`) together with an Express
  server exposing one action-dispatched endpoint `/api/workout` (`server.js`);
* an embedded better-sqlite3 server with per-resource routes
  (`/api/exercises`, `/api/workouts/:date`, ...), whose SQL runs inline.

The backing store is modelled as an explicit state value threaded through
every operation.  In request bodies, `none` in an `Option` field models an
absent JSON field (JavaScript `undefined`); better-sqlite3 refuses to bind
`undefined`, which is why the per-resource routes fail with a store-level
error where the action-dispatched handler validates first.
-/

/-- An `exercise` row: `id` primary key, `name NOT NULL`, `gif` nullable. -/
structure Exercise where
  id : Nat
  name : String
  gif : Option String
deriving Repr, DecidableEq

/-- A `workout` row: autoincrement `id`, `date`, `exercise_id`, nullable
`duration`. -/
structure WorkoutEntry where
  id : Nat
  date : String
  exercise_id : Nat
  duration : Option Int
deriving Repr, DecidableEq

/-- The relational store: both tables plus the id sequences (`SERIAL` /
`AUTOINCREMENT`). -/
structure Store where
  exercises : List Exercise
  workouts : List WorkoutEntry
  nextExerciseId : Nat
  nextWorkoutId : Nat
deriving Repr, DecidableEq

/-- One element of the `exercises` array of a workout-save request body:
`{ id, duration }`, each field possibly absent. -/
structure WorkoutInput where
  id : Option Nat
  duration : Option Int
deriving Repr, DecidableEq

/-- The `exercises` field of a workout-save body: absent (or otherwise
JS-falsy), present but not an array, or an array. -/
inductive ExercisesField where
  | missing
  | notArray
  | array (l : List WorkoutInput)
deriving Repr, DecidableEq

/-- A `workout` row joined with the referenced exercise's `name` and `gif`,
as returned by `getWorkoutByDate`. -/
structure EnrichedEntry where
  entry : WorkoutEntry
  name : String
  gif : Option String
deriving Repr, DecidableEq

/-- Result of one handler invocation: the store afterwards, the HTTP status,
and the `error` message of the JSON body when there is one. -/
structure HandlerResult where
  store : Store
  status : Nat
  errMsg : Option String
deriving Repr, DecidableEq

/-- JS truthiness of a string-valued field: absent or empty is falsy. -/
def falsyStr : Option String → Bool
  | none => true
  | some s => s.isEmpty

/-- `ORDER BY id` on workout rows (ascending). -/
def sortById (l : List WorkoutEntry) : List WorkoutEntry :=
  List.insertionSort (fun a b => a.id ≤ b.id) l

/-- `data.map` over rows that dereferences the nested `exercise` record:
throws a `TypeError` when the join target is absent (`workout.exercise` is
`null`), mirroring `db.js` `getWorkoutByDate`'s transform. -/
def enrichEntry (s : Store) (w : WorkoutEntry) : Except String EnrichedEntry :=
  match s.exercises.find? (fun e => e.id = w.exercise_id) with
  | some e => .ok ⟨w, e.name, e.gif⟩
  | none => .error "TypeError: Cannot read properties of null"

/-- `List.map` under `Except`: stops at the first error, like a JS `.map`
whose callback throws. -/
def exceptMap {α β : Type} (f : α → Except String β) : List α → Except String (List β)
  | [] => .ok []
  | a :: l =>
    match f a with
    | .error e => .error e
    | .ok b =>
      match exceptMap f l with
      | .error e => .error e
      | .ok bs => .ok (b :: bs)

/-- `db.js` `getWorkoutByDate(date)`: select workout rows for the date ordered
by id, each enriched with the referenced exercise's `name` and `gif`. -/
def getWorkoutByDate (s : Store) (d : String) : Except String (List EnrichedEntry) :=
  exceptMap (enrichEntry s) (sortById (s.workouts.filter (fun w => w.date = d)))

/-- The rows built by `exercises.map((e) => ({date, exercise_id: e.id,
duration: e.duration}))`, with ids drawn from the store's sequence. -/
def mkRows (n : Nat) (d : String) : List WorkoutInput → List WorkoutEntry
  | [] => []
  | e :: rest => ⟨n, d, e.id.getD 0, e.duration⟩ :: mkRows (n + 1) d rest

/-- Whether one inserted row satisfies the Supabase-side constraints:
`exercise_id NOT NULL` and the foreign key into `exercise`. -/
def validInsert (s : Store) (e : WorkoutInput) : Bool :=
  match e.id with
  | some i => s.exercises.any (fun ex => ex.id = i)
  | none => false

/-- `db.js` `saveWorkout(date, exercises)`: delete the date's rows, then one
bulk insert.  The bulk insert is a single REST call, so it lands entirely or
not at all; but the delete has already been issued, so on failure the store
is left with the date cleared (no rollback across the two calls). -/
def saveWorkout (s : Store) (d : String) (l : List WorkoutInput) :
    Store × Except String Unit :=
  let s1 : Store := { s with workouts := s.workouts.filter (fun w => ¬ w.date = d) }
  if l.all (validInsert s1) then
    ({ s1 with workouts := s1.workouts ++ mkRows s1.nextWorkoutId d l,
               nextWorkoutId := s1.nextWorkoutId + l.length }, .ok ())
  else
    (s1, .error "insert violates a column or foreign key constraint")

/-- First-occurrence deduplication, as `[...new Set(dates)]` does in JS. -/
def dedupFirst : List String → List String
  | [] => []
  | d :: l => d :: dedupFirst (l.filter (fun x => ¬ x = d))
termination_by l => l.length
decreasing_by
  simp_wf
  exact Nat.lt_succ_of_le (List.length_filter_le _ _)

/-- `ORDER BY date DESC` on the date column. -/
def sortDatesDesc (l : List String) : List String :=
  List.insertionSort (fun a b => b ≤ a) l

/-- `db.js` `getAllWorkoutDates()`: all dates sorted descending, then
deduplicated via a JS `Set` (first occurrence kept). -/
def getAllWorkoutDates (s : Store) : List String :=
  dedupFirst (sortDatesDesc (s.workouts.map (fun w => w.date)))

/-- `db.js` `deleteWorkout(date)`: delete the date's rows, returning the
exact count of rows removed. -/
def deleteWorkout (s : Store) (d : String) : Store × Nat :=
  ({ s with workouts := s.workouts.filter (fun w => ¬ w.date = d) },
   (s.workouts.filter (fun w => w.date = d)).length)

/-- `db.js` `addExercise(name, gif)`: insert and return the created row. -/
def addExercise (s : Store) (n : String) (g : Option String) : Store × Exercise :=
  let e : Exercise := ⟨s.nextExerciseId, n, g⟩
  ({ s with exercises := s.exercises ++ [e], nextExerciseId := s.nextExerciseId + 1 }, e)

/-- `db.js` `updateExercise(id, name, gif)`: `UPDATE ... WHERE id = ?`; the
returned flag says whether a row matched. -/
def updateExercise (s : Store) (i : Nat) (n : String) (g : Option String) :
    Store × Bool :=
  ({ s with exercises :=
      s.exercises.map (fun e => if e.id = i then { e with name := n, gif := g } else e) },
   s.exercises.any (fun e => e.id = i))

/-- `db.js` `deleteExercise(id)`: first selects referencing workout rows and
throws when any exist; otherwise deletes and reports whether a row went. -/
def deleteExercise (s : Store) (i : Nat) : Except String (Store × Bool) :=
  if (s.workouts.filter (fun w => w.exercise_id = i)).length > 0 then
    .error "Cannot delete exercise that is used in workouts"
  else
    .ok ({ s with exercises := s.exercises.filter (fun e => ¬ e.id = i) },
         (s.exercises.filter (fun e => e.id = i)).length > 0)

/-! ### Surface A: the action-dispatched `/api/workout` handler (`server.js`)

Every thrown adapter error is caught by the handler's single `try/catch` and
answered with status 500 carrying the error's message. -/

/-- `POST /api/workout?action=workout&date=...`: requires a truthy `date`
query parameter, then an array-valued `exercises` body field. -/
def surfaceA_postWorkout (s : Store) (date : Option String) (exs : ExercisesField) :
    HandlerResult :=
  if falsyStr date then ⟨s, 400, some "Invalid action or missing parameters"⟩
  else
    match date with
    | some d =>
      match exs with
      | .array l =>
        match saveWorkout s d l with
        | (s', .ok _) => ⟨s', 200, none⟩
        | (s', .error m) => ⟨s', 500, some m⟩
      | _ => ⟨s, 400, some "Exercises array is required"⟩
    | none => ⟨s, 400, some "Invalid action or missing parameters"⟩

/-- `POST /api/workout?action=exercise`: requires truthy `name` and `gif`. -/
def surfaceA_postExercise (s : Store) (n g : Option String) : HandlerResult :=
  if falsyStr n || falsyStr g then ⟨s, 400, some "Name and gif URL are required"⟩
  else
    match n, g with
    | some nm, some gf => ⟨(addExercise s nm (some gf)).1, 200, none⟩
    | _, _ => ⟨s, 400, some "Name and gif URL are required"⟩

/-- `PUT /api/workout?action=exercise&id=...`: validates `name`/`gif`, then
maps `updated: false` to 404. -/
def surfaceA_putExercise (s : Store) (i : Nat) (n g : Option String) : HandlerResult :=
  if falsyStr n || falsyStr g then ⟨s, 400, some "Name and gif URL are required"⟩
  else
    match n, g with
    | some nm, some gf =>
      match updateExercise s i nm (some gf) with
      | (s', true) => ⟨s', 200, none⟩
      | (s', false) => ⟨s', 404, some "Exercise not found"⟩
    | _, _ => ⟨s, 400, some "Name and gif URL are required"⟩

/-- `DELETE /api/workout?action=exercise&id=...`: a thrown referential
integrity error reaches the outer catch and becomes a 500. -/
def surfaceA_deleteExercise (s : Store) (i : Nat) : HandlerResult :=
  match deleteExercise s i with
  | .error m => ⟨s, 500, some m⟩
  | .ok (s', true) => ⟨s', 200, none⟩
  | .ok (s', false) => ⟨s', 404, some "Exercise not found"⟩

/-! ### The embedded better-sqlite3 per-resource routes

These routes perform no input validation; a missing body field binds
JavaScript `undefined`, which better-sqlite3 rejects with a `TypeError`,
caught by the route's `try/catch` as a 500.  The repository never issues
`PRAGMA foreign_keys = ON`, so SQLite does not enforce the foreign key. -/

/-- Inserting the workout rows one `run` at a time inside the transaction;
an absent `id` or `duration` is an `undefined` binding and throws. -/
def sqliteInsertRows (s : Store) (d : String) :
    List WorkoutInput → Except String Store
  | [] => .ok s
  | e :: rest =>
    match e.id, e.duration with
    | some i, some dur =>
      sqliteInsertRows
        { s with workouts := s.workouts ++ [⟨s.nextWorkoutId, d, i, some dur⟩],
                 nextWorkoutId := s.nextWorkoutId + 1 } d rest
    | _, _ => .error "TypeError: SQLite3 can only bind numbers, strings, bigints, buffers, and null"

/-- `POST /api/workouts`: delete-then-insert wrapped in `db.transaction`, so
any throw inside the body rolls the store back to its pre-call state. -/
def sqlitePostWorkout (s : Store) (date : Option String) (exs : ExercisesField) :
    HandlerResult :=
  let txn : Except String Store :=
    match date with
    | none => .error "TypeError: SQLite3 can only bind numbers, strings, bigints, buffers, and null"
    | some d =>
      let s1 : Store := { s with workouts := s.workouts.filter (fun w => ¬ w.date = d) }
      match exs with
      | .array l => sqliteInsertRows s1 d l
      | _ => .error "TypeError: exercises.forEach is not a function"
  match txn with
  | .ok s' => ⟨s', 200, none⟩
  | .error m => ⟨s, 500, some m⟩

/-- `POST /api/exercises`: no validation; both columns are bound directly. -/
def sqlitePostExercise (s : Store) (n g : Option String) : HandlerResult :=
  match n, g with
  | some nm, some gf => ⟨(addExercise s nm (some gf)).1, 200, none⟩
  | _, _ => ⟨s, 500, some "TypeError: SQLite3 can only bind numbers, strings, bigints, buffers, and null"⟩

/-- `PUT /api/exercises/:id`: no validation; `changes === 0` maps to 404. -/
def sqlitePutExercise (s : Store) (i : Nat) (n g : Option String) : HandlerResult :=
  match n, g with
  | some nm, some gf =>
    match updateExercise s i nm (some gf) with
    | (s', true) => ⟨s', 200, none⟩
    | (s', false) => ⟨s', 404, some "Exercise not found"⟩
  | _, _ => ⟨s, 500, some "TypeError: SQLite3 can only bind numbers, strings, bigints, buffers, and null"⟩

/-- `DELETE /api/exercises/:id`: counts referencing workout rows first and
answers 400 when any exist; otherwise deletes, 404 when nothing matched. -/
def sqliteDeleteExercise (s : Store) (i : Nat) : HandlerResult :=
  if (s.workouts.filter (fun w => w.exercise_id = i)).length > 0 then
    ⟨s, 400, some "Cannot delete exercise that is used in workouts"⟩
  else
    let s' : Store := { s with exercises := s.exercises.filter (fun e => ¬ e.id = i) }
    if (s.exercises.filter (fun e => e.id = i)).length = 0 then
      ⟨s', 404, some "Exercise not found"⟩
    else
      ⟨s', 200, none⟩

/-- A concrete store used to instantiate the theorems: one exercise that the
single workout entry references, plus one unreferenced exercise. -/
def demoStore : Store where
  exercises := [⟨1, "Pushups", some "http://x/push.gif"⟩, ⟨2, "Squats", some "http://x/squat.gif"⟩]
  workouts := [⟨1, "2024-01-01", 1, some 60⟩]
  nextExerciseId := 3
  nextWorkoutId := 2

/-! ### Helper lemmas -/

instance : IsTotal String (fun a b => b ≤ a) := ⟨fun a b => le_total b a⟩

instance : IsTrans String (fun a b => b ≤ a) := ⟨fun _ _ _ h1 h2 => le_trans h2 h1⟩

instance : IsTotal WorkoutEntry (fun a b => a.id ≤ b.id) := ⟨fun a b => Nat.le_total a.id b.id⟩

instance : IsTrans WorkoutEntry (fun a b => a.id ≤ b.id) := ⟨fun _ _ _ => Nat.le_trans⟩

theorem mem_dedupFirst : ∀ l : List String, ∀ a : String, a ∈ dedupFirst l ↔ a ∈ l
  | [] => by intro a; simp [dedupFirst]
  | d :: l => by
    intro a
    rw [dedupFirst, List.mem_cons, List.mem_cons,
      mem_dedupFirst (l.filter (fun x => ¬ x = d)) a]
    constructor
    · rintro (rfl | h)
      · exact Or.inl rfl
      · exact Or.inr (List.mem_filter.mp h).1
    · rintro (rfl | h)
      · exact Or.inl rfl
      · by_cases hd : a = d
        · exact Or.inl hd
        · exact Or.inr (List.mem_filter.mpr ⟨h, by simpa using hd⟩)
termination_by l => l.length
decreasing_by
  all_goals simp_wf
  all_goals exact Nat.lt_succ_of_le (List.length_filter_le _ _)

theorem dedupFirst_sublist : ∀ l : List String, (dedupFirst l).Sublist l
  | [] => by simp [dedupFirst]
  | d :: l => by
    rw [dedupFirst]
    exact ((dedupFirst_sublist (l.filter (fun x => ¬ x = d))).trans
      (List.filter_sublist l)).cons₂ d
termination_by l => l.length
decreasing_by
  all_goals simp_wf
  all_goals exact Nat.lt_succ_of_le (List.length_filter_le _ _)

theorem nodup_dedupFirst : ∀ l : List String, (dedupFirst l).Nodup
  | [] => by simp [dedupFirst]
  | d :: l => by
    rw [dedupFirst]
    refine List.nodup_cons.mpr ⟨?_, nodup_dedupFirst _⟩
    intro hmem
    have h := (mem_dedupFirst _ d).mp hmem
    simpa using (List.mem_filter.mp h).2
termination_by l => l.length
decreasing_by
  all_goals simp_wf
  all_goals exact Nat.lt_succ_of_le (List.length_filter_le _ _)

theorem filter_ne_date_then_eq (l : List WorkoutEntry) (d : String) :
    (l.filter (fun w => ¬ w.date = d)).filter (fun w => w.date = d) = [] := by
  induction l with
  | nil => rfl
  | cons w l ih =>
    by_cases h : w.date = d <;> simp [h, ih]

theorem length_filter_split (l : List WorkoutEntry) (d : String) :
    l.length = (l.filter (fun w => ¬ w.date = d)).length
      + (l.filter (fun w => w.date = d)).length := by
  induction l with
  | nil => rfl
  | cons w l ih =>
    by_cases h : w.date = d <;> simp [h, ih] <;> omega

/-- C9: `deleteWorkout(date)` removes exactly the entries for the date (none
remain, everything else is kept untouched), and the acknowledged row count is
exact: it accounts for the difference in table size and is `0` when no entry
for the date existed. -/
theorem deleteWorkout_spec (s : Store) (d : String) :
    (∀ w ∈ (deleteWorkout s d).1.workouts, ¬ w.date = d) ∧
    (∀ w, w ∈ (deleteWorkout s d).1.workouts ↔ w ∈ s.workouts ∧ ¬ w.date = d) ∧
    s.workouts.length = (deleteWorkout s d).1.workouts.length + (deleteWorkout s d).2 ∧
    ((∀ w ∈ s.workouts, ¬ w.date = d) → (deleteWorkout s d).2 = 0) ∧
    (deleteWorkout s d).1.exercises = s.exercises := by
  refine ⟨?_, ?_, ?_, ?_, rfl⟩
  · intro w hw
    simpa using (List.mem_filter.mp hw).2
  · intro w
    simp [deleteWorkout, List.mem_filter]
  · exact length_filter_split s.workouts d
  · intro h
    simp only [deleteWorkout]
    rw [List.length_eq_zero]
    refine List.filter_eq_nil_iff.mpr ?_
    intro w hw
    simpa using h w hw

/-- C9 witness: the demo store holds one entry for 2024-01-01; instantiating
the theorem there. -/
theorem deleteWorkout_spec_witness :
    (∀ w ∈ (deleteWorkout demoStore "2024-01-01").1.workouts, ¬ w.date = "2024-01-01") ∧
    (∀ w, w ∈ (deleteWorkout demoStore "2024-01-01").1.workouts ↔
      w ∈ demoStore.workouts ∧ ¬ w.date = "2024-01-01") ∧
    demoStore.workouts.length = (deleteWorkout demoStore "2024-01-01").1.workouts.length
      + (deleteWorkout demoStore "2024-01-01").2 ∧
    ((∀ w ∈ demoStore.workouts, ¬ w.date = "2024-01-01") →
      (deleteWorkout demoStore "2024-01-01").2 = 0) ∧
    (deleteWorkout demoStore "2024-01-01").1.exercises = demoStore.exercises :=
  deleteWorkout_spec demoStore "2024-01-01"

/-- C10: saving an empty exercises array is accepted and acts as a full
clear: the date's rows are deleted, nothing is inserted, the save succeeds
(in both variants), and a subsequent `getWorkoutByDate` returns the empty
sequence. -/
theorem saveWorkout_empty (s : Store) (d : String) :
    (saveWorkout s d []).2 = .ok () ∧
    (saveWorkout s d []).1.workouts = s.workouts.filter (fun w => ¬ w.date = d) ∧
    getWorkoutByDate (saveWorkout s d []).1 d = .ok [] ∧
    (sqlitePostWorkout s (some d) (.array [])).status = 200 ∧
    (sqlitePostWorkout s (some d) (.array [])).store.workouts
      = s.workouts.filter (fun w => ¬ w.date = d) := by
  have h1 : (saveWorkout s d []).1.workouts = s.workouts.filter (fun w => ¬ w.date = d) := by
    simp [saveWorkout, mkRows]
  refine ⟨by simp [saveWorkout], h1, ?_, rfl, rfl⟩
  rw [getWorkoutByDate, h1, filter_ne_date_then_eq]
  rfl

/-- C6: `getAllWorkoutDates` returns each stored workout date exactly once
(no duplicates even when several entries share a date), sorted strictly
descending. -/
theorem getAllWorkoutDates_spec (s : Store) :
    (getAllWorkoutDates s).Nodup ∧
    List.Sorted (fun a b : String => b < a) (getAllWorkoutDates s) ∧
    (∀ d, d ∈ getAllWorkoutDates s ↔ ∃ w ∈ s.workouts, w.date = d) := by
  have hsorted : List.Sorted (fun a b : String => b ≤ a)
      (sortDatesDesc (s.workouts.map (fun w => w.date))) :=
    List.sorted_insertionSort _ _
  have hsub := dedupFirst_sublist (sortDatesDesc (s.workouts.map (fun w => w.date)))
  have hnodup := nodup_dedupFirst (sortDatesDesc (s.workouts.map (fun w => w.date)))
  have hsorted2 : List.Sorted (fun a b : String => b ≤ a) (getAllWorkoutDates s) :=
    hsorted.sublist hsub
  refine ⟨hnodup, ?_, ?_⟩
  · have hand := hsorted2.and hnodup
    exact hand.imp (fun h => lt_of_le_of_ne h.1 (Ne.symm h.2))
  · intro d
    rw [getAllWorkoutDates, mem_dedupFirst, sortDatesDesc, List.mem_insertionSort,
      List.mem_map]

/-- C6 witness: instantiating the statement on a store with two entries
sharing a date. -/
theorem getAllWorkoutDates_spec_witness :
    (getAllWorkoutDates (Store.mk demoStore.exercises
        [⟨1, "2024-01-01", 1, some 60⟩, ⟨2, "2024-01-02", 2, some 30⟩,
         ⟨3, "2024-01-01", 2, some 45⟩] 3 4)).Nodup ∧
    List.Sorted (fun a b : String => b < a)
      (getAllWorkoutDates (Store.mk demoStore.exercises
        [⟨1, "2024-01-01", 1, some 60⟩, ⟨2, "2024-01-02", 2, some 30⟩,
         ⟨3, "2024-01-01", 2, some 45⟩] 3 4)) ∧
    (∀ d, d ∈ getAllWorkoutDates (Store.mk demoStore.exercises
        [⟨1, "2024-01-01", 1, some 60⟩, ⟨2, "2024-01-02", 2, some 30⟩,
         ⟨3, "2024-01-01", 2, some 45⟩] 3 4) ↔
      ∃ w ∈ (Store.mk demoStore.exercises
        [⟨1, "2024-01-01", 1, some 60⟩, ⟨2, "2024-01-02", 2, some 30⟩,
         ⟨3, "2024-01-01", 2, some 45⟩] 3 4).workouts, w.date = d) :=
  getAllWorkoutDates_spec _

theorem mkRows_mem_date (d : String) :
    ∀ (l : List WorkoutInput) (n : Nat), ∀ w ∈ mkRows n d l, w.date = d
  | [], _ => by simp [mkRows]
  | e :: rest, n => by
    intro w hw
    rcases List.mem_cons.mp hw with rfl | h
    · rfl
    · exact mkRows_mem_date d rest (n + 1) w h

theorem mkRows_mem_id_ge (d : String) :
    ∀ (l : List WorkoutInput) (n : Nat), ∀ w ∈ mkRows n d l, n ≤ w.id
  | [], _ => by simp [mkRows]
  | e :: rest, n => by
    intro w hw
    rcases List.mem_cons.mp hw with rfl | h
    · exact le_refl n
    · exact Nat.le_of_succ_le (mkRows_mem_id_ge d rest (n + 1) w h)

theorem mkRows_sorted (d : String) :
    ∀ (l : List WorkoutInput) (n : Nat),
      List.Sorted (fun a b : WorkoutEntry => a.id ≤ b.id) (mkRows n d l)
  | [], _ => List.sorted_nil
  | e :: rest, n => by
    rw [mkRows, List.sorted_cons]
    exact ⟨fun w hw => Nat.le_of_succ_le (mkRows_mem_id_ge d rest (n + 1) w hw),
      mkRows_sorted d rest (n + 1)⟩

theorem mkRows_filter_eq (d : String) (l : List WorkoutInput) (n : Nat) :
    (mkRows n d l).filter (fun w => w.date = d) = mkRows n d l :=
  List.filter_eq_self.mpr (fun w hw => by simp [mkRows_mem_date d l n w hw])

theorem mkRows_filter_ne (d : String) (l : List WorkoutInput) (n : Nat) :
    (mkRows n d l).filter (fun w => ¬ w.date = d) = [] :=
  List.filter_eq_nil_iff.mpr (fun w hw => by simp [mkRows_mem_date d l n w hw])

theorem mkRows_mem_exid (d : String) :
    ∀ (l : List WorkoutInput) (n : Nat), ∀ w ∈ mkRows n d l,
      ∃ e ∈ l, w.exercise_id = e.id.getD 0
  | [], _ => by simp [mkRows]
  | e :: rest, n => by
    intro w hw
    rcases List.mem_cons.mp hw with rfl | h
    · exact ⟨e, List.mem_cons_self _ _, rfl⟩
    · obtain ⟨e', he', hw'⟩ := mkRows_mem_exid d rest (n + 1) w h
      exact ⟨e', List.mem_cons_of_mem _ he', hw'⟩

theorem mkRows_proj (d : String) :
    ∀ (l : List WorkoutInput) (n : Nat), (∀ e ∈ l, e.id.isSome = true) →
      (mkRows n d l).map (fun w => ((some w.exercise_id : Option Nat), w.duration))
        = l.map (fun e => (e.id, e.duration))
  | [], _ => by simp [mkRows]
  | e :: rest, n => by
    intro h
    rw [mkRows, List.map_cons, List.map_cons,
      mkRows_proj d rest (n + 1) (fun x hx => h x (List.mem_cons_of_mem _ hx))]
    have he := h e (List.mem_cons_self _ _)
    match hid : e.id with
    | some i => simp
    | none => rw [hid] at he; simp at he

theorem exceptMap_enrich_ok (s : Store) :
    ∀ rows : List WorkoutEntry,
      (∀ w ∈ rows, ∃ e ∈ s.exercises, e.id = w.exercise_id) →
      ∃ L, exceptMap (enrichEntry s) rows = .ok L ∧
        L.map EnrichedEntry.entry = rows ∧
        ∀ r ∈ L, ∃ e ∈ s.exercises,
          e.id = r.entry.exercise_id ∧ r.name = e.name ∧ r.gif = e.gif
  | [] => by
    intro _
    exact ⟨[], rfl, rfl, by simp⟩
  | w :: rows => by
    intro h
    obtain ⟨L, hL, hmap, hen⟩ :=
      exceptMap_enrich_ok s rows (fun x hx => h x (List.mem_cons_of_mem _ hx))
    obtain ⟨e, he, hei⟩ := h w (List.mem_cons_self _ _)
    have hfind : (s.exercises.find? (fun ex => ex.id = w.exercise_id)).isSome := by
      rw [List.find?_isSome]
      exact ⟨e, he, by simp [hei]⟩
    match hf : s.exercises.find? (fun ex => ex.id = w.exercise_id) with
    | some e' =>
      refine ⟨⟨w, e'.name, e'.gif⟩ :: L, ?_, ?_, ?_⟩
      · rw [exceptMap, enrichEntry, hf, hL]
      · rw [List.map_cons, hmap]
      · intro r hr
        rcases List.mem_cons.mp hr with rfl | hr'
        · refine ⟨e', List.mem_of_find?_eq_some hf, ?_, rfl, rfl⟩
          have := List.find?_some hf
          simpa using this
        · exact hen r hr'
    | none => rw [hf] at hfind; simp at hfind

/-- C1: replace semantics of workout save.  For a date and a list `E` of
entries whose ids reference existing exercises, after `saveWorkout(date, E)`
succeeds, `getWorkoutByDate(date)` returns exactly the entries of `E`: the
same exercise ids and durations in the same number and order, with no residue
from any earlier save for that date. -/
theorem saveWorkout_replace (s : Store) (d : String) (E : List WorkoutInput)
    (hE : ∀ e ∈ E, ∃ ex ∈ s.exercises, some ex.id = e.id) :
    (saveWorkout s d E).2 = .ok () ∧
    ∃ L, getWorkoutByDate (saveWorkout s d E).1 d = .ok L ∧
      L.map (fun r => ((some r.entry.exercise_id : Option Nat), r.entry.duration))
        = E.map (fun e => (e.id, e.duration)) := by
  have hall : E.all (validInsert
      { s with workouts := s.workouts.filter (fun w => ¬ w.date = d) }) = true := by
    rw [List.all_eq_true]
    intro e he
    obtain ⟨ex, hex, hid⟩ := hE e he
    simp only [validInsert]
    rw [← hid, List.any_eq_true]
    exact ⟨ex, hex, by simp⟩
  have key : saveWorkout s d E =
      ({ exercises := s.exercises,
         workouts := s.workouts.filter (fun w => ¬ w.date = d) ++ mkRows s.nextWorkoutId d E,
         nextExerciseId := s.nextExerciseId,
         nextWorkoutId := s.nextWorkoutId + E.length }, .ok ()) := by
    simp only [saveWorkout]
    rw [if_pos hall]
  have hw : (saveWorkout s d E).1.workouts
      = s.workouts.filter (fun w => ¬ w.date = d) ++ mkRows s.nextWorkoutId d E := by
    rw [key]
  have hex : (saveWorkout s d E).1.exercises = s.exercises := by
    rw [key]
  have hfilter : (saveWorkout s d E).1.workouts.filter (fun w => w.date = d)
      = mkRows s.nextWorkoutId d E := by
    rw [hw, List.filter_append, filter_ne_date_then_eq, mkRows_filter_eq, List.nil_append]
  have hsort : sortById (mkRows s.nextWorkoutId d E) = mkRows s.nextWorkoutId d E :=
    (mkRows_sorted d E s.nextWorkoutId).insertionSort_eq
  obtain ⟨L, hL, hmap, hen⟩ := exceptMap_enrich_ok (saveWorkout s d E).1
    (mkRows s.nextWorkoutId d E) (by
      intro w hwm
      obtain ⟨e, he, hwid⟩ := mkRows_mem_exid d E s.nextWorkoutId w hwm
      obtain ⟨ex, hex2, hid⟩ := hE e he
      refine ⟨ex, by rw [hex]; exact hex2, ?_⟩
      rw [hwid, ← hid]
      rfl)
  refine ⟨by rw [key], L, ?_, ?_⟩
  · rw [getWorkoutByDate, hfilter, hsort]
    exact hL
  · have hcomp : L.map (fun r => ((some r.entry.exercise_id : Option Nat), r.entry.duration))
        = (L.map EnrichedEntry.entry).map
            (fun w => ((some w.exercise_id : Option Nat), w.duration)) := by
      rw [List.map_map]
      rfl
    rw [hcomp, hmap, mkRows_proj]
    intro e he
    obtain ⟨ex, _, hid⟩ := hE e he
    rw [← hid]
    rfl

/-- C1 witness: saving one pushup entry for a fresh date on the demo store
and reading it back. -/
theorem saveWorkout_replace_witness :
    (∀ e ∈ [WorkoutInput.mk (some 1) (some 45)],
        ∃ ex ∈ demoStore.exercises, some ex.id = e.id) ∧
    ((saveWorkout demoStore "2024-01-02" [WorkoutInput.mk (some 1) (some 45)]).2
        = .ok () ∧
     ∃ L, getWorkoutByDate
          (saveWorkout demoStore "2024-01-02" [WorkoutInput.mk (some 1) (some 45)]).1
          "2024-01-02" = .ok L ∧
       L.map (fun r => ((some r.entry.exercise_id : Option Nat), r.entry.duration))
         = [WorkoutInput.mk (some 1) (some 45)].map (fun e => (e.id, e.duration))) :=
  ⟨by decide,
   saveWorkout_replace demoStore "2024-01-02" [WorkoutInput.mk (some 1) (some 45)]
     (by decide)⟩

/-- C8: when every entry of the date references an existing exercise,
`getWorkoutByDate` succeeds; the underlying rows of the returned list are a
permutation of the store's rows for that date, sorted by entry id ascending,
and each returned record carries the referenced exercise's `name` and `gif`
as flat fields. -/
theorem getWorkoutByDate_spec (s : Store) (d : String)
    (h : ∀ w ∈ s.workouts, w.date = d → ∃ e ∈ s.exercises, e.id = w.exercise_id) :
    ∃ L, getWorkoutByDate s d = .ok L ∧
      (L.map EnrichedEntry.entry).Perm (s.workouts.filter (fun w => w.date = d)) ∧
      List.Sorted (fun a b : WorkoutEntry => a.id ≤ b.id) (L.map EnrichedEntry.entry) ∧
      (∀ r ∈ L, r.entry.date = d ∧ r.entry ∈ s.workouts) ∧
      (∀ r ∈ L, ∃ e ∈ s.exercises,
        e.id = r.entry.exercise_id ∧ r.name = e.name ∧ r.gif = e.gif) := by
  have hmem : ∀ w ∈ sortById (s.workouts.filter (fun w => w.date = d)),
      w ∈ s.workouts ∧ w.date = d := by
    intro w hw
    rw [sortById, List.mem_insertionSort] at hw
    have h2 := List.mem_filter.mp hw
    exact ⟨h2.1, by simpa using h2.2⟩
  obtain ⟨L, hL, hmap, hen⟩ := exceptMap_enrich_ok s
    (sortById (s.workouts.filter (fun w => w.date = d)))
    (fun w hw => h w (hmem w hw).1 (hmem w hw).2)
  refine ⟨L, hL, ?_, ?_, ?_, hen⟩
  · rw [hmap]
    simp only [sortById]
    exact List.perm_insertionSort _ _
  · rw [hmap]
    simp only [sortById]
    exact List.sorted_insertionSort _ _
  · intro r hr
    have hrm : r.entry ∈ sortById (s.workouts.filter (fun w => w.date = d)) := by
      rw [← hmap]
      exact List.mem_map_of_mem _ hr
    exact ⟨(hmem _ hrm).2, (hmem _ hrm).1⟩

/-- C8 witness: reading 2024-01-01 back from the demo store, whose single
entry references exercise 1. -/
theorem getWorkoutByDate_spec_witness :
    (∀ w ∈ demoStore.workouts, w.date = "2024-01-01" →
      ∃ e ∈ demoStore.exercises, e.id = w.exercise_id) ∧
    (∃ L, getWorkoutByDate demoStore "2024-01-01" = .ok L ∧
      (L.map EnrichedEntry.entry).Perm
        (demoStore.workouts.filter (fun w => w.date = "2024-01-01")) ∧
      List.Sorted (fun a b : WorkoutEntry => a.id ≤ b.id) (L.map EnrichedEntry.entry) ∧
      (∀ r ∈ L, r.entry.date = "2024-01-01" ∧ r.entry ∈ demoStore.workouts) ∧
      (∀ r ∈ L, ∃ e ∈ demoStore.exercises,
        e.id = r.entry.exercise_id ∧ r.name = e.name ∧ r.gif = e.gif)) :=
  ⟨by decide, getWorkoutByDate_spec demoStore "2024-01-01" (by decide)⟩

theorem filter_ne_date_idem (l : List WorkoutEntry) (d : String) :
    (l.filter (fun w => ¬ w.date = d)).filter (fun w => ¬ w.date = d)
      = l.filter (fun w => ¬ w.date = d) :=
  List.filter_eq_self.mpr (fun _ hw => (List.mem_filter.mp hw).2)

theorem sqliteInsertRows_ok (d : String) :
    ∀ (l : List WorkoutInput) (s s' : Store),
      sqliteInsertRows s d l = .ok s' →
      s'.workouts = s.workouts ++ mkRows s.nextWorkoutId d l ∧
      s'.exercises = s.exercises ∧
      (∀ e ∈ l, e.id.isSome = true)
  | [], s, s' => by
    intro h
    simp only [sqliteInsertRows] at h
    cases h
    simp [mkRows]
  | e :: rest, s, s' => by
    intro h
    simp only [sqliteInsertRows] at h
    match hid : e.id, hdur : e.duration with
    | some i, some dur =>
      rw [hid, hdur] at h
      obtain ⟨hw, hex, hsome⟩ := sqliteInsertRows_ok d rest _ s' h
      refine ⟨?_, hex, ?_⟩
      · rw [hw, mkRows]
        simp [hid, hdur, List.append_assoc]
      · intro x hx
        rcases List.mem_cons.mp hx with rfl | hx'
        · rw [hid]; rfl
        · exact hsome x hx'
    | some i, none => rw [hid, hdur] at h; cases h
    | none, _ => rw [hid] at h; cases h

/-- C3: atomicity of the embedded-store workout save.  `POST /api/workouts`
wraps delete+insert in one `db.transaction`, so the resulting store is either
exactly the pre-call store (any failure, full rollback) or the completed new
state: the date's rows are exactly the request's entries and every other
date's rows are untouched — never a mixture. -/
theorem sqlitePostWorkout_atomic (s : Store) (date : Option String)
    (exs : ExercisesField) :
    (sqlitePostWorkout s date exs).store = s ∨
    (∃ d l, date = some d ∧ exs = ExercisesField.array l ∧
      (sqlitePostWorkout s date exs).status = 200 ∧
      (sqlitePostWorkout s date exs).store.workouts.filter (fun w => ¬ w.date = d)
        = s.workouts.filter (fun w => ¬ w.date = d) ∧
      ((sqlitePostWorkout s date exs).store.workouts.filter (fun w => w.date = d)).map
          (fun w => ((some w.exercise_id : Option Nat), w.duration))
        = l.map (fun e => (e.id, e.duration))) := by
  cases date with
  | none => exact Or.inl rfl
  | some d =>
    cases exs with
    | missing => exact Or.inl rfl
    | notArray => exact Or.inl rfl
    | array l =>
      match hins : sqliteInsertRows
          { s with workouts := s.workouts.filter (fun w => ¬ w.date = d) } d l with
      | .error m =>
        left
        simp only [sqlitePostWorkout]
        rw [hins]
      | .ok s2 =>
        right
        obtain ⟨hw, hex, hsome⟩ := sqliteInsertRows_ok d l _ s2 hins
        have hres : sqlitePostWorkout s (some d) (.array l) = ⟨s2, 200, none⟩ := by
          simp only [sqlitePostWorkout]
          rw [hins]
        refine ⟨d, l, rfl, rfl, by rw [hres], ?_, ?_⟩
        · rw [hres, hw, List.filter_append, filter_ne_date_idem, mkRows_filter_ne,
            List.append_nil]
        · rw [hres, hw, List.filter_append, filter_ne_date_then_eq, mkRows_filter_eq,
            List.nil_append]
          exact mkRows_proj d l _ hsome

theorem referenced_iff_filter_pos (s : Store) (i : Nat) :
    (∃ w ∈ s.workouts, w.exercise_id = i) ↔
      (s.workouts.filter (fun w => w.exercise_id = i)).length > 0 := by
  constructor
  · rintro ⟨w, hw, hwe⟩
    exact List.length_pos_of_mem (List.mem_filter.mpr ⟨hw, by simp [hwe]⟩)
  · intro h
    obtain ⟨w, hw⟩ := List.exists_mem_of_length_pos h
    exact ⟨w, (List.mem_filter.mp hw).1, by simpa using (List.mem_filter.mp hw).2⟩

theorem exists_iff_filter_pos (s : Store) (i : Nat) :
    (∃ e ∈ s.exercises, e.id = i) ↔
      (s.exercises.filter (fun e => e.id = i)).length > 0 := by
  constructor
  · rintro ⟨e, he, hei⟩
    exact List.length_pos_of_mem (List.mem_filter.mpr ⟨he, by simp [hei]⟩)
  · intro h
    obtain ⟨e, he⟩ := List.exists_mem_of_length_pos h
    exact ⟨e, (List.mem_filter.mp he).1, by simpa using (List.mem_filter.mp he).2⟩

/-- C2 counterexample: in the demo store, exercise 1 is referenced by a
workout entry; the action-dispatched DELETE handler answers 500 — not the 400
the claim asserts (the adapter's thrown conflict reaches the generic catch). -/
theorem surfaceA_deleteExercise_conflict_is_500 :
    ¬ (surfaceA_deleteExercise demoStore 1).status = 400 ∧
    (surfaceA_deleteExercise demoStore 1).status = 500 ∧
    (surfaceA_deleteExercise demoStore 1).store = demoStore ∧
    (∃ w ∈ demoStore.workouts, w.exercise_id = 1) := by
  decide

/-- C2 (amended): when a workout entry references the exercise, the delete is
blocked with the referential-integrity message and the store is untouched —
the embedded per-resource route maps it to 400, while the action-dispatched
handler surfaces it as 500; when nothing references an existing exercise,
both variants delete the row and answer 200. -/
theorem deleteExercise_guard (s : Store) (i : Nat) :
    ((∃ w ∈ s.workouts, w.exercise_id = i) →
      surfaceA_deleteExercise s i
        = ⟨s, 500, some "Cannot delete exercise that is used in workouts"⟩ ∧
      sqliteDeleteExercise s i
        = ⟨s, 400, some "Cannot delete exercise that is used in workouts"⟩) ∧
    ((¬ ∃ w ∈ s.workouts, w.exercise_id = i) → (∃ e ∈ s.exercises, e.id = i) →
      (surfaceA_deleteExercise s i).status = 200 ∧
      (sqliteDeleteExercise s i).status = 200 ∧
      (∀ e, e ∈ (surfaceA_deleteExercise s i).store.exercises ↔
        e ∈ s.exercises ∧ ¬ e.id = i) ∧
      (∀ e, e ∈ (sqliteDeleteExercise s i).store.exercises ↔
        e ∈ s.exercises ∧ ¬ e.id = i) ∧
      (surfaceA_deleteExercise s i).store.workouts = s.workouts ∧
      (sqliteDeleteExercise s i).store.workouts = s.workouts) := by
  constructor
  · intro h
    have hc := (referenced_iff_filter_pos s i).mp h
    have hdel : deleteExercise s i
        = .error "Cannot delete exercise that is used in workouts" := by
      simp only [deleteExercise]
      rw [if_pos hc]
    constructor
    · simp only [surfaceA_deleteExercise]
      rw [hdel]
    · simp only [sqliteDeleteExercise]
      rw [if_pos hc]
  · intro h he
    have hc : ¬ (s.workouts.filter (fun w => w.exercise_id = i)).length > 0 :=
      fun hgt => h ((referenced_iff_filter_pos s i).mpr hgt)
    have hb := (exists_iff_filter_pos s i).mp he
    have hdel : deleteExercise s i
        = .ok ({ s with exercises := s.exercises.filter (fun e => ¬ e.id = i) }, true) := by
      simp only [deleteExercise]
      rw [if_neg hc, decide_eq_true hb]
    have hA : surfaceA_deleteExercise s i
        = ⟨{ s with exercises := s.exercises.filter (fun e => ¬ e.id = i) }, 200, none⟩ := by
      simp only [surfaceA_deleteExercise]
      rw [hdel]
    have hS : sqliteDeleteExercise s i
        = ⟨{ s with exercises := s.exercises.filter (fun e => ¬ e.id = i) }, 200, none⟩ := by
      simp only [sqliteDeleteExercise]
      rw [if_neg hc, if_neg (Nat.pos_iff_ne_zero.mp hb)]
    refine ⟨by rw [hA], by rw [hS], ?_, ?_, by rw [hA], by rw [hS]⟩
    · intro e
      rw [hA]
      simp [List.mem_filter]
    · intro e
      rw [hS]
      simp [List.mem_filter]

/-- C2 witness: instantiating both branches of the amended statement — the
blocked delete of referenced exercise 1 and the successful delete of the
unreferenced exercise 2. -/
theorem deleteExercise_guard_witness :
    ((∃ w ∈ demoStore.workouts, w.exercise_id = 1) ∧
      surfaceA_deleteExercise demoStore 1
        = ⟨demoStore, 500, some "Cannot delete exercise that is used in workouts"⟩ ∧
      sqliteDeleteExercise demoStore 1
        = ⟨demoStore, 400, some "Cannot delete exercise that is used in workouts"⟩) ∧
    ((¬ ∃ w ∈ demoStore.workouts, w.exercise_id = 2) ∧
      (surfaceA_deleteExercise demoStore 2).status = 200 ∧
      (sqliteDeleteExercise demoStore 2).status = 200) :=
  ⟨⟨by decide, (deleteExercise_guard demoStore 1).1 (by decide)⟩,
   ⟨by decide,
    ((deleteExercise_guard demoStore 2).2 (by decide) (by decide)).1,
    ((deleteExercise_guard demoStore 2).2 (by decide) (by decide)).2.1⟩⟩

theorem updateExercise_no_match (s : Store) (i : Nat) (n : String) (g : Option String)
    (h : ∀ e ∈ s.exercises, ¬ e.id = i) :
    updateExercise s i n g = (s, false) := by
  have h1 : s.exercises.map
      (fun e => if e.id = i then { e with name := n, gif := g } else e) = s.exercises := by
    have := List.map_congr_left (l := s.exercises)
      (f := fun e => if e.id = i then { e with name := n, gif := g } else e) (g := id)
      (fun e he => by simp [h e he])
    rw [this, List.map_id]
  have h2 : s.exercises.any (fun e => e.id = i) = false :=
    List.any_eq_false.mpr (fun e he => by simp [h e he])
  simp only [updateExercise]
  rw [h1, h2]

/-- C7: updating a non-existent exercise id answers 404 in both variants
(`updated: false` in the action-dispatched handler, `changes === 0` in the
embedded route), creates no row, and leaves the store unchanged. -/
theorem updateExercise_missing_404 (s : Store) (i : Nat) (n g : String)
    (hn : n.isEmpty = false) (hg : g.isEmpty = false)
    (h : ∀ e ∈ s.exercises, ¬ e.id = i) :
    surfaceA_putExercise s i (some n) (some g) = ⟨s, 404, some "Exercise not found"⟩ ∧
    sqlitePutExercise s i (some n) (some g) = ⟨s, 404, some "Exercise not found"⟩ := by
  have hu := updateExercise_no_match s i n (some g) h
  constructor
  · simp only [surfaceA_putExercise, falsyStr]
    rw [hn, hg]
    simp only [Bool.or_self, Bool.false_eq_true, if_false]
    rw [hu]
  · simp only [sqlitePutExercise]
    rw [hu]

/-- C7 witness: no exercise in the demo store has id 99. -/
theorem updateExercise_missing_404_witness :
    ("Rows".isEmpty = false) ∧ ("http://x/row.gif".isEmpty = false) ∧
    (∀ e ∈ demoStore.exercises, ¬ e.id = 99) ∧
    surfaceA_putExercise demoStore 99 (some "Rows") (some "http://x/row.gif")
      = ⟨demoStore, 404, some "Exercise not found"⟩ ∧
    sqlitePutExercise demoStore 99 (some "Rows") (some "http://x/row.gif")
      = ⟨demoStore, 404, some "Exercise not found"⟩ := by
  refine ⟨by decide, by decide, by decide, ?_, ?_⟩
  · exact (updateExercise_missing_404 demoStore 99 "Rows" "http://x/row.gif"
      (by decide) (by decide) (by decide)).1
  · exact (updateExercise_missing_404 demoStore 99 "Rows" "http://x/row.gif"
      (by decide) (by decide) (by decide)).2

/-- C4 counterexample: a create-exercise request with `name` absent hits the
embedded `POST /api/exercises` route, which validates nothing; the `undefined`
binding fails in the store layer and the route answers 500, not the 400 the
claim asserts (the store is still unchanged). -/
theorem sqlitePostExercise_missing_name_is_500 :
    ¬ (sqlitePostExercise demoStore none (some "http://x/push.gif")).status = 400 ∧
    (sqlitePostExercise demoStore none (some "http://x/push.gif")).status = 500 ∧
    (sqlitePostExercise demoStore none (some "http://x/push.gif")).store = demoStore := by
  decide

/-- C4 (amended): when `name` or `gif` is absent from an exercise
create/update request, no store mutation occurs in any variant; the
action-dispatched handler answers 400 with a descriptive error body, while
the embedded per-resource routes perform no validation and answer 500 from
the failed store-level binding. -/
theorem exerciseValidation (s : Store) (i : Nat) (n g : Option String)
    (h : n = none ∨ g = none) :
    surfaceA_postExercise s n g = ⟨s, 400, some "Name and gif URL are required"⟩ ∧
    surfaceA_putExercise s i n g = ⟨s, 400, some "Name and gif URL are required"⟩ ∧
    (sqlitePostExercise s n g).status = 500 ∧
    (sqlitePostExercise s n g).store = s ∧
    (sqlitePutExercise s i n g).status = 500 ∧
    (sqlitePutExercise s i n g).store = s := by
  rcases h with rfl | rfl
  · cases g <;> exact ⟨rfl, rfl, rfl, rfl, rfl, rfl⟩
  · cases n with
    | none => exact ⟨rfl, rfl, rfl, rfl, rfl, rfl⟩
    | some nm =>
      refine ⟨?_, ?_, rfl, rfl, rfl, rfl⟩
      · simp [surfaceA_postExercise, falsyStr]
      · simp [surfaceA_putExercise, falsyStr]

/-- C4 witness: instantiating the amended statement with `gif` absent. -/
theorem exerciseValidation_witness :
    ((some "Pushups" : Option String) = none ∨ (none : Option String) = none) ∧
    surfaceA_postExercise demoStore (some "Pushups") none
      = ⟨demoStore, 400, some "Name and gif URL are required"⟩ ∧
    surfaceA_putExercise demoStore 1 (some "Pushups") none
      = ⟨demoStore, 400, some "Name and gif URL are required"⟩ ∧
    (sqlitePostExercise demoStore (some "Pushups") none).status = 500 ∧
    (sqlitePostExercise demoStore (some "Pushups") none).store = demoStore ∧
    (sqlitePutExercise demoStore 1 (some "Pushups") none).status = 500 ∧
    (sqlitePutExercise demoStore 1 (some "Pushups") none).store = demoStore :=
  ⟨Or.inr rfl, exerciseValidation demoStore 1 (some "Pushups") none (Or.inr rfl)⟩

/-- C5 counterexample: a workout-save with the `exercises` field absent hits
the embedded `POST /api/workouts` route, which validates nothing; the
transaction body throws and rolls back, and the route answers 500, not the
400 the claim asserts (the store is unchanged). -/
theorem sqlitePostWorkout_missing_exercises_is_500 :
    ¬ (sqlitePostWorkout demoStore (some "2024-01-01") ExercisesField.missing).status
        = 400 ∧
    (sqlitePostWorkout demoStore (some "2024-01-01") ExercisesField.missing).status
        = 500 ∧
    (sqlitePostWorkout demoStore (some "2024-01-01") ExercisesField.missing).store
        = demoStore := by
  decide

/-- C5 (amended): when the `exercises` field of a workout-save request is
missing or not an array, no store mutation occurs in any variant; the
action-dispatched handler answers 400 with a descriptive error body, while
the embedded route fails inside the transaction (which rolls back) and
answers 500. -/
theorem workoutValidation (s : Store) (date : Option String) (exs : ExercisesField)
    (h : exs = ExercisesField.missing ∨ exs = ExercisesField.notArray) :
    (surfaceA_postWorkout s date exs).status = 400 ∧
    (surfaceA_postWorkout s date exs).store = s ∧
    (surfaceA_postWorkout s date exs).errMsg.isSome = true ∧
    (sqlitePostWorkout s date exs).status = 500 ∧
    (sqlitePostWorkout s date exs).store = s := by
  have hmain : ∀ ex2 : ExercisesField,
      (ex2 = ExercisesField.missing ∨ ex2 = ExercisesField.notArray) →
      (surfaceA_postWorkout s date ex2).status = 400 ∧
      (surfaceA_postWorkout s date ex2).store = s ∧
      (surfaceA_postWorkout s date ex2).errMsg.isSome = true ∧
      (sqlitePostWorkout s date ex2).status = 500 ∧
      (sqlitePostWorkout s date ex2).store = s := by
    intro ex2 h2
    cases date with
    | none =>
      rcases h2 with rfl | rfl <;> exact ⟨rfl, rfl, rfl, rfl, rfl⟩
    | some d =>
      have hsql : (sqlitePostWorkout s (some d) ex2).status = 500 ∧
          (sqlitePostWorkout s (some d) ex2).store = s := by
        rcases h2 with rfl | rfl <;> exact ⟨rfl, rfl⟩
      have hsurf : (surfaceA_postWorkout s (some d) ex2).status = 400 ∧
          (surfaceA_postWorkout s (some d) ex2).store = s ∧
          (surfaceA_postWorkout s (some d) ex2).errMsg.isSome = true := by
        by_cases hd : d.isEmpty = true
        · simp only [surfaceA_postWorkout, falsyStr]
          rw [if_pos hd]
          exact ⟨rfl, rfl, rfl⟩
        · simp only [surfaceA_postWorkout, falsyStr]
          rw [if_neg hd]
          rcases h2 with rfl | rfl <;> exact ⟨rfl, rfl, rfl⟩
      exact ⟨hsurf.1, hsurf.2.1, hsurf.2.2, hsql.1, hsql.2⟩
  exact hmain exs h

/-- C5 witness: instantiating the amended statement with `exercises` absent
and a valid date. -/
theorem workoutValidation_witness :
    (ExercisesField.missing = ExercisesField.missing ∨
      ExercisesField.missing = ExercisesField.notArray) ∧
    (surfaceA_postWorkout demoStore (some "2024-01-01") ExercisesField.missing).status
        = 400 ∧
    (surfaceA_postWorkout demoStore (some "2024-01-01") ExercisesField.missing).store
        = demoStore ∧
    (sqlitePostWorkout demoStore (some "2024-01-01") ExercisesField.missing).status
        = 500 ∧
    (sqlitePostWorkout demoStore (some "2024-01-01") ExercisesField.missing).store
        = demoStore :=
  ⟨Or.inl rfl,
   (workoutValidation demoStore (some "2024-01-01") ExercisesField.missing
      (Or.inl rfl)).1,
   (workoutValidation demoStore (some "2024-01-01") ExercisesField.missing
      (Or.inl rfl)).2.1,
   (workoutValidation demoStore (some "2024-01-01") ExercisesField.missing
      (Or.inl rfl)).2.2.2.1,
   (workoutValidation demoStore (some "2024-01-01") ExercisesField.missing
      (Or.inl rfl)).2.2.2.2⟩
